import Mathlib

/-!
Verification of the Spaghetti FSM engine core (single header `spaghetti.hpp`).

The development shallowly embeds the configuration-and-execution kernel of the
`SpagFSM` class template: the transition matrix, the allow-mask, the per-state
`StateInfo` table (timeout descriptor, pass-state marker, inner-transition
list, callback presence), the runtime data (`current`, running flag, the
logging counters of `RunTimeData`), the configuration API, the validator
`doChecking` and the runtime entry points `processEvent` and
`processInnerEvent`.

Modelling conventions:
- state and event identifiers are `Nat` (the C++ enums are contiguous
  zero-based integer domains with sentinels `NB_STATES` / `NB_EVENTS`);
- the `NumEvents x NumStates` matrices are total functions `Nat -> Nat -> _`
  (the C++ arrays are only ever accessed in range; out-of-range indices are
  rejected by the `SPAG_CHECK_LESS` guards, modelled as `Option` failure);
- host callbacks are opaque, so a state's callback is modelled by a presence
  flag, and every interaction with the event-handler port or a callback is
  recorded in an effect trace (`Effect`);
- a C++ `throw` from a configuration function is modelled as `none` when it
  happens before any mutation, and as an explicit error component when the
  source mutates the object before throwing (`allowEvent`,
  `assignGlobalTimeOut`);
- the embedding follows the header as compiled with `SPAG_USE_SIGNALS`,
  `SPAG_ENABLE_LOGGING` and `SPAG_FRIENDLY_CHECKING` enabled (the
  feature-complete build the specification describes); code disabled by
  `#if 0` is not part of the compiled program and hence not of the model.
-/

namespace Spag

/-- Timer units, from `enum class DurUnit { ms, sec, min }`. -/
inductive DurUnit
  | ms
  | sec
  | min
deriving DecidableEq

/-- `priv::TimerEvent` (spaghetti.hpp:198-216): per-state timeout descriptor.
Fields default to next-state 0, duration 0, disabled, unit seconds. -/
structure TimerEvent where
  nextState : Nat
  duration : Nat
  enabled : Bool
  durUnit : DurUnit
deriving DecidableEq

/-- The default-constructed `TimerEvent`. -/
def TimerEvent.mk0 : TimerEvent := ⟨0, 0, false, DurUnit.sec⟩

/-- `priv::InnerTransition` (spaghetti.hpp:220-244): an inner ("deferred")
transition; `isActive` is toggled at runtime.  The C++ `operator==` compares
`_destState` and `_innerEvent` only, ignoring `_isActive`. -/
structure InnerTransition where
  isActive : Bool
  destState : Nat
  innerEvent : Nat
deriving DecidableEq

/-- `priv::StateInfo` (spaghetti.hpp:248-298).  The C++ callback
`std::function` and its argument are host values the engine only invokes, so
they are modelled by a presence flag; the invocation itself shows up in the
effect trace. -/
structure StateInfo where
  timerEvent : TimerEvent
  hasCallback : Bool
  isPassState : Bool
  ptNextState : Nat
  innerTransList : List InnerTransition
deriving DecidableEq

/-- The default-constructed `StateInfo` (all flags off, empty inner list). -/
def StateInfo.mk0 : StateInfo := ⟨TimerEvent.mk0, false, false, 0, []⟩

/-- `StateInfo::holdsInnerTransition(ev, st)` (spaghetti.hpp:261-273): true
iff the inner-transition list holds an entry with event `ev` AND destination
`st` (the `std::find` uses `InnerTransition::operator==`, which compares the
destination and the event). -/
def StateInfo.holdsInnerTransition (si : StateInfo) (ev st : Nat) : Bool :=
  si.innerTransList.any fun it => it.destState == st && it.innerEvent == ev

/-- Observable interactions of the core with its collaborators: the
event-handler port methods and the two kinds of user callbacks. -/
inductive Effect
  | timerStart
  | timerCancel
  | raiseSignal
  | stateCallback (st : Nat)
  | ignCallback (st ev : Nat)
deriving DecidableEq

/-- The `SpagFSM` class data (spaghetti.hpp:576-1470) together with the
logging counters of `priv::RunTimeData` (spaghetti.hpp:338-510).
`transitionMat`/`allowedMat` are indexed `[event][state]` as in the source.
`history` records the rows of the CSV run history as `(event idx, state idx)`
pairs, in order. -/
structure SpagFSM where
  nbStates : Nat
  nbEvents : Nat
  transitionMat : Nat → Nat → Nat
  allowedMat : Nat → Nat → Bool
  stateInfo : Nat → StateInfo
  current : Nat
  isRunning : Bool
  defaultTimerUnit : DurUnit
  hasIgnCallback : Bool
  stateCounter : Nat → Nat
  eventCounter : Nat → Nat
  ignoredEvents : Nat → Nat
  history : List (Nat × Nat)

/-- The freshly constructed machine (constructor, spaghetti.hpp:587-627):
transition table filled with state 0, all events disallowed, default state
info everywhere, current state 0, not running, default unit seconds, all
counters zero. -/
def mkFSM (n e : Nat) : SpagFSM where
  nbStates := n
  nbEvents := e
  transitionMat := fun _ _ => 0
  allowedMat := fun _ _ => false
  stateInfo := fun _ => StateInfo.mk0
  current := 0
  isRunning := false
  defaultTimerUnit := DurUnit.sec
  hasIgnCallback := false
  stateCounter := fun _ => 0
  eventCounter := fun _ => 0
  ignoredEvents := fun _ => 0
  history := []

/-- `assignTransition(ST st1, EV ev, ST st2)` (spaghetti.hpp:651-672): after
the range checks, rejects a source state previously declared a pass-state,
otherwise sets `next[ev][st1] = st2` and `allowed[ev][st1] = true`.
`none` models the configuration-error throw. -/
def assignTransition (m : SpagFSM) (st1 ev st2 : Nat) : Option SpagFSM :=
  if st1 < m.nbStates ∧ st2 < m.nbStates ∧ ev < m.nbEvents then
    if (m.stateInfo st1).isPassState then none
    else some { m with
      transitionMat := fun e s =>
        if e = ev ∧ s = st1 then st2 else m.transitionMat e s,
      allowedMat := fun e s =>
        if e = ev ∧ s = st1 then true else m.allowedMat e s }
  else none

/-- `assignTransition(ST st1, ST st2)` (spaghetti.hpp:681-725): declares
`st1` a pass-state (AAT) leading to `st2`.  Rejects `st1 = st2`; clears the
inner-transition list of `st1` (with a warning) and disables its timeout
(with a warning). -/
def assignTransitionAAT (m : SpagFSM) (st1 st2 : Nat) : Option SpagFSM :=
  if st1 < m.nbStates ∧ st2 < m.nbStates then
    if st1 = st2 then none
    else some { m with
      stateInfo := fun s =>
        if s = st1 then
          { m.stateInfo st1 with
            isPassState := true
            ptNextState := st2
            innerTransList := []
            timerEvent := { (m.stateInfo st1).timerEvent with enabled := false } }
        else m.stateInfo s }
  else none

/-- `assignInnerTransition(ST st1, EV ev, ST st2)` (spaghetti.hpp:729-745):
rejects a pass-state source, otherwise appends the inner transition (created
inactive) and also sets `next[ev][st1] = st2`, `allowed[ev][st1] = true`. -/
def assignInnerTransition (m : SpagFSM) (st1 ev st2 : Nat) : Option SpagFSM :=
  if st1 < m.nbStates ∧ st2 < m.nbStates ∧ ev < m.nbEvents then
    if (m.stateInfo st1).isPassState then none
    else some { m with
      stateInfo := fun s =>
        if s = st1 then
          { m.stateInfo st1 with
            isPassState := false
            innerTransList :=
              (m.stateInfo st1).innerTransList ++ [⟨false, st2, ev⟩] }
        else m.stateInfo s,
      transitionMat := fun e s =>
        if e = ev ∧ s = st1 then st2 else m.transitionMat e s,
      allowedMat := fun e s =>
        if e = ev ∧ s = st1 then true else m.allowedMat e s }
  else none

/-- `assignTimeOut(ST st_curr, Duration dur, DurUnit unit, ST st_next)`
(spaghetti.hpp:823-829): overwrites the timeout descriptor of `st_curr` with
an enabled `TimerEvent{st_next, dur, unit}`.  No other field is touched (in
particular the pass-state flag is NOT checked). -/
def assignTimeOut (m : SpagFSM) (stCurr dur : Nat) (unit : DurUnit) (stNext : Nat) :
    Option SpagFSM :=
  if stCurr < m.nbStates ∧ stNext < m.nbStates then
    some { m with
      stateInfo := fun s =>
        if s = stCurr then
          { m.stateInfo stCurr with timerEvent := ⟨stNext, dur, true, unit⟩ }
        else m.stateInfo s }
  else none

/-- Unchecked core of `assignTimeOut`, as invoked from inside the
`assignGlobalTimeOut` loop where the indices are already known to be in
range. -/
def assignTimeOutU (m : SpagFSM) (stCurr dur : Nat) (unit : DurUnit) (stNext : Nat) :
    SpagFSM :=
  { m with
    stateInfo := fun s =>
      if s = stCurr then
        { m.stateInfo stCurr with timerEvent := ⟨stNext, dur, true, unit⟩ }
      else m.stateInfo s }

/-- `clearTimeOut(ST st)` (spaghetti.hpp:847-861): disables the timeout of
`st` (warning when none was enabled). -/
def clearTimeOut (m : SpagFSM) (st : Nat) : Option SpagFSM :=
  if st < m.nbStates then
    some { m with
      stateInfo := fun s =>
        if s = st then
          { m.stateInfo st with
            timerEvent := { (m.stateInfo st).timerEvent with enabled := false } }
        else m.stateInfo s }
  else none

/-- Errors raised from inside the `assignGlobalTimeOut` loop: a configuration
error naming a state that already carries an enabled timeout, or the range
failure of the nested `assignTimeOut` call. -/
inductive AgtError
  | timeoutConflict (st : Nat)
  | badIndex
deriving DecidableEq

/-- The loop body of `assignGlobalTimeOut(dur, durUnit, st_final)`
(spaghetti.hpp:795-814): for each `i` in order, skip `st_final`; throw a
configuration error naming `i` when `i` already has an enabled timeout;
otherwise call `assignTimeOut(i, dur, durUnit, st_final)`.  The first
component of the result is the machine at the moment the loop finishes or
the throw happens (the C++ throw leaves already-performed mutations in
place). -/
def agtAux (dur : Nat) (unit : DurUnit) (stFinal : Nat) :
    List Nat → SpagFSM → SpagFSM × Option AgtError
  | [], m => (m, none)
  | i :: rest, m =>
    if i = stFinal then agtAux dur unit stFinal rest m
    else if (m.stateInfo i).timerEvent.enabled then
      (m, some (AgtError.timeoutConflict i))
    else if i < m.nbStates ∧ stFinal < m.nbStates then
      agtAux dur unit stFinal rest (assignTimeOutU m i dur unit stFinal)
    else (m, some AgtError.badIndex)

/-- `assignGlobalTimeOut(Duration dur, DurUnit durUnit, ST st_final)`
(spaghetti.hpp:795-814). -/
def assignGlobalTimeOut (m : SpagFSM) (dur : Nat) (unit : DurUnit) (stFinal : Nat) :
    SpagFSM × Option AgtError :=
  agtAux dur unit stFinal (List.range m.nbStates) m

/-- `assignTransition(EV ev, ST st)` (spaghetti.hpp:864-872), the broadcast
overload: after the range checks, sets every entry of row `ev` of the
transition matrix to `st` and every entry of row `ev` of the allow-mask to
true.  No pass-state check is performed. -/
def assignTransitionBroadcast (m : SpagFSM) (ev st : Nat) : Option SpagFSM :=
  if st < m.nbStates ∧ ev < m.nbEvents then
    some { m with
      transitionMat := fun e s => if e = ev then st else m.transitionMat e s,
      allowedMat := fun e s => if e = ev then true else m.allowedMat e s }
  else none

/-- `allowEvent(ST st, EV ev, bool what)` (spaghetti.hpp:885-896): after the
range checks, FIRST writes `allowed[ev][st] = what`, THEN throws a
`std::runtime_error` when `holdsInnerTransition(ev, st)` holds on state `st`.
The boolean component is true iff that throw happens; the machine component
is the (already mutated) object. -/
def allowEvent (m : SpagFSM) (st ev : Nat) (what : Bool) :
    Option (SpagFSM × Bool) :=
  if st < m.nbStates ∧ ev < m.nbEvents then
    some
      ({ m with
         allowedMat := fun e s =>
           if e = ev ∧ s = st then what else m.allowedMat e s },
       (m.stateInfo st).holdsInnerTransition ev st)
  else none

/-- `RunTimeData::logTransition(st, ev_idx)` (spaghetti.hpp:435-457):
increments the event counter at `evIdx` and the state counter at `st`, and
appends one row to the run history. -/
def logTransition (m : SpagFSM) (st evIdx : Nat) : SpagFSM :=
  { m with
    eventCounter := fun i =>
      if i = evIdx then m.eventCounter evIdx + 1 else m.eventCounter i,
    stateCounter := fun i =>
      if i = st then m.stateCounter st + 1 else m.stateCounter i,
    history := m.history ++ [(evIdx, st)] }

/-- `RunTimeData::logIgnoredEvent(ev_idx)` (spaghetti.hpp:459-463):
increments the ignored-event counter at `evIdx`. -/
def logIgnoredEvent (m : SpagFSM) (evIdx : Nat) : SpagFSM :=
  { m with
    ignoredEvents := fun i =>
      if i = evIdx then m.ignoredEvents evIdx + 1 else m.ignoredEvents i }

/-- `runAction()` (spaghetti.hpp:1373-1414), as the effect trace it produces,
in order: start the timer when the (new) current state's timeout is enabled;
invoke the state callback when one is stored; when the state is a pass-state
or any of its inner transitions is active, raise the signal and then cancel
the timer. -/
def runAction (m : SpagFSM) : List Effect :=
  let si := m.stateInfo m.current
  (if si.timerEvent.enabled then [Effect.timerStart] else [])
    ++ (if si.hasCallback then [Effect.stateCallback m.current] else [])
    ++ (if si.isPassState || si.innerTransList.any (fun it => it.isActive) then
          [Effect.raiseSignal, Effect.timerCancel]
        else [])

/-- `processEvent(EV ev)` (spaghetti.hpp:1111-1154).  When the event is
allowed on the current state: cancel the pending timer when the current
state's timeout is enabled, switch to `next[ev][current]`, log the
transition, run the action.  When it is ignored: invoke the ignored-events
callback when one is assigned, and bump the ignored-event counter. -/
def processEvent (m : SpagFSM) (ev : Nat) : SpagFSM × List Effect :=
  if m.allowedMat ev m.current then
    let cancel :=
      if (m.stateInfo m.current).timerEvent.enabled then [Effect.timerCancel]
      else []
    let nxt := m.transitionMat ev m.current
    let m1 := logTransition { m with current := nxt } nxt ev
    (m1, cancel ++ runAction m1)
  else
    (logIgnoredEvent m ev,
     if m.hasIgnCallback then [Effect.ignCallback m.current ev] else [])

/-- The scan of `processInnerEvent`'s else-branch (spaghetti.hpp:1203-1214):
walks the inner-transition list in order; at the first entry whose active
flag is set, returns its destination and event and clears that flag. -/
def scanInner : List InnerTransition → Option (Nat × Nat) × List InnerTransition
  | [] => (none, [])
  | it :: rest =>
    if it.isActive then
      (some (it.destState, it.innerEvent), { it with isActive := false } :: rest)
    else
      let r := scanInner rest
      (r.1, it :: r.2)

/-- `processInnerEvent(const StateInfo&)` (spaghetti.hpp:1192-1220).  The
logged event id defaults to `NumEvents + 1`; on a pass-state the machine
switches to `ptNextState`; otherwise the first ACTIVE inner transition (if
any) provides the new state AND overwrites the logged event id with its own
event, and its flag is cleared.  The transition is then logged and
`runAction()` executes.  The middle component is the argument `StateInfo`
after the flag clearing (the source writes through its `mutable` field). -/
def processInnerEvent (m : SpagFSM) (stinf : StateInfo) :
    SpagFSM × StateInfo × List Effect :=
  if stinf.isPassState then
    let m1 := logTransition { m with current := stinf.ptNextState }
      stinf.ptNextState (m.nbEvents + 1)
    (m1, stinf, runAction m1)
  else
    match scanInner stinf.innerTransList with
    | (some (dest, evi), l2) =>
      let m1 := logTransition { m with current := dest } dest evi
      (m1, { stinf with innerTransList := l2 }, runAction m1)
    | (none, l2) =>
      let m1 := logTransition m m.current (m.nbEvents + 1)
      (m1, { stinf with innerTransList := l2 }, runAction m1)

/-- `isReachable(size_t st)` (spaghetti.hpp:1610-1638): true iff some OTHER
state `i` has an allowed external transition to `st`, an enabled timeout to
`st`, a pass-state transition to `st`, or an inner transition to `st`. -/
def isReachable (m : SpagFSM) (st : Nat) : Bool :=
  (List.range m.nbStates).any fun i =>
    i != st
      && (((List.range m.nbEvents).any fun k =>
             m.transitionMat k i == st && m.allowedMat k i)
          || ((m.stateInfo i).timerEvent.enabled
              && (m.stateInfo i).timerEvent.nextState == st)
          || ((m.stateInfo i).isPassState
              && (m.stateInfo i).ptNextState == st)
          || (m.stateInfo i).innerTransList.any fun itr => itr.destState == st)

/-- The diagnostics `doChecking` writes to its stream. -/
inductive Warning
  | unreachable (st : Nat)
  | deadEnd (st : Nat)
deriving DecidableEq

/-- The `unreachableStates` vector built by `doChecking`
(spaghetti.hpp:1665-1669): the states `i >= 1` with `!isReachable(i)`, in
increasing order. -/
def unreachableList (m : SpagFSM) : List Nat :=
  (List.range m.nbStates).filter fun i => i != 0 && !(isReachable m i)

/-- The dead-end warnings of `doChecking` (spaghetti.hpp:1679-1709): one for
each state with no enabled timeout, no pass-state flag and no allowed
non-self external transition, PROVIDED the state is not already in the
unreachable list. -/
def deadEndList (m : SpagFSM) : List Warning :=
  (List.range m.nbStates).filterMap fun i =>
    if !((m.stateInfo i).timerEvent.enabled
          || (m.stateInfo i).isPassState
          || ((List.range m.nbEvents).any fun j =>
                m.transitionMat j i != i && m.allowedMat j i))
        && !((unreachableList m).contains i) then
      some (Warning.deadEnd i)
    else none

/-- `doChecking()` (spaghetti.hpp:1642-1710), as the ordered list of
warnings it prints.  The pass-state fatal checks of the stricter revision
are inside `#if 0` in this source, so the function cannot throw: it first
prints the unreachable-state warnings, then the dead-end warnings. -/
def doChecking (m : SpagFSM) : List Warning :=
  (unreachableList m).map Warning.unreachable ++ deadEndList m

/-- `start()` (spaghetti.hpp:1058-1081): runs `doChecking` (which, in this
source, can only warn), sets the running flag, sets the initial-state
counter to 1 (`incrementInitState`), and executes `runAction()` for the
initial state.  Returned: the updated machine, the validator warnings, and
the action's effect trace. -/
def start (m : SpagFSM) : SpagFSM × List Warning × List Effect :=
  let w := doChecking m
  let m1 := { m with
    isRunning := true,
    stateCounter := fun i => if i = 0 then 1 else m.stateCounter i }
  (m1, w, runAction m1)

/-- `assignInnerTransition(EV ev, ST st)` (spaghetti.hpp:751-771), the
broadcast overload: for every state `i` (of the table) other than `st`, if
`i` does not already hold an inner transition `(ev, st)`, append one
(created inactive).  No pass-state check is performed, so pass-states
receive inner transitions too. -/
def assignInnerTransitionB (m : SpagFSM) (ev st : Nat) : Option SpagFSM :=
  if st < m.nbStates ∧ ev < m.nbEvents then
    some { m with
      stateInfo := fun s =>
        if s ≠ st ∧ s < m.nbStates ∧
            (m.stateInfo s).holdsInnerTransition ev st = false then
          { m.stateInfo s with
            innerTransList := (m.stateInfo s).innerTransList ++ [⟨false, st, ev⟩] }
        else m.stateInfo s }
  else none

/-- First-match removal used by `disableInnerTransition`: drops the first
inner transition whose event is `ev`; `none` when no entry uses `ev`
(mirrors `findInnerEvent` returning the end iterator followed by `erase`). -/
def removeFirstInnerEvent (ev : Nat) :
    List InnerTransition → Option (List InnerTransition)
  | [] => none
  | it :: rest =>
    if it.innerEvent = ev then some rest
    else
      match removeFirstInnerEvent ev rest with
      | some l => some (it :: l)
      | none => none

/-- `disableInnerTransition(EV ev, ST st_from)` (spaghetti.hpp:906-934):
erases the first inner transition of `st_from` using `ev`; throws a
configuration error (here `none`) when there is none.  The source performs
no range check on `st_from`. -/
def disableInnerTransition (m : SpagFSM) (ev stFrom : Nat) : Option SpagFSM :=
  match removeFirstInnerEvent ev (m.stateInfo stFrom).innerTransList with
  | none => none
  | some l =>
    some { m with
      stateInfo := fun s =>
        if s = stFrom then { m.stateInfo stFrom with innerTransList := l }
        else m.stateInfo s }

/-- `clearTimeOuts()` (spaghetti.hpp:840-845): disables the timeout of every
state of the table. -/
def clearTimeOuts (m : SpagFSM) : SpagFSM :=
  { m with
    stateInfo := fun s =>
      if s < m.nbStates then
        { m.stateInfo s with
          timerEvent := { (m.stateInfo s).timerEvent with enabled := false } }
      else m.stateInfo s }

/-- `allowAllEvents()` (spaghetti.hpp:874-879): sets every entry of the
allow-mask to true. -/
def allowAllEvents (m : SpagFSM) : SpagFSM :=
  { m with allowedMat := fun _ _ => true }

/-- `assignEventMatrix(mat)` (spaghetti.hpp:633-638): installs a
caller-supplied allow-mask (the C++ size equality checks cannot fail in the
total-function model of the matrices). -/
def assignEventMatrix (m : SpagFSM) (mat : Nat → Nat → Bool) : SpagFSM :=
  { m with allowedMat := mat }

/-- `assignTransitionMat(mat)` (spaghetti.hpp:640-645): installs a
caller-supplied transition matrix. -/
def assignTransitionMat (m : SpagFSM) (mat : Nat → Nat → Nat) : SpagFSM :=
  { m with transitionMat := mat }

/-- One legal configuration operation: covers every `assign*` / `allow*` /
`clear*` call of the configuration API that mutates this machine's
transition matrix, allow-mask or state-info table — both `assignTransition`
overloads, the pass-state assignment `assignTransition(ST,ST)`, both
`assignInnerTransition` overloads, `disableInnerTransition`, `assignTimeOut`
(its unit variants all reduce to the `DurUnit` one), `assignGlobalTimeOut`,
`clearTimeOut`, `clearTimeOuts`, `allowEvent`, `allowAllEvents`, and the raw
matrix setters `assignEventMatrix` / `assignTransitionMat`.  `assignConfig`
(wholesale copy-in of a sibling machine's tables) is not a scalar
configuration step and is omitted: every table it can install on a sibling
of the same dimensions is itself produced by these operations. -/
inductive ConfigOp
  | ext (st1 ev st2 : Nat)
  | extB (ev st : Nat)
  | aat (st1 st2 : Nat)
  | inner (st1 ev st2 : Nat)
  | innerB (ev st : Nat)
  | disableInner (ev stFrom : Nat)
  | timeout (st dur : Nat) (unit : DurUnit) (next : Nat)
  | globalTO (dur : Nat) (unit : DurUnit) (fnl : Nat)
  | clearTO (st : Nat)
  | clearAllTO
  | allow (st ev : Nat) (what : Bool)
  | allowAll
  | eventMatrix (mat : Nat → Nat → Bool)
  | transitionMatrix (mat : Nat → Nat → Nat)

/-- Apply one configuration operation; `none` models a throwing call (an
`allowEvent` or `assignGlobalTimeOut` that throws is also treated as
illegal here — their partial-mutation behavior on throw is covered by the
dedicated theorems). -/
def applyOp (m : SpagFSM) : ConfigOp → Option SpagFSM
  | ConfigOp.ext st1 ev st2 => assignTransition m st1 ev st2
  | ConfigOp.extB ev st => assignTransitionBroadcast m ev st
  | ConfigOp.aat st1 st2 => assignTransitionAAT m st1 st2
  | ConfigOp.inner st1 ev st2 => assignInnerTransition m st1 ev st2
  | ConfigOp.innerB ev st => assignInnerTransitionB m ev st
  | ConfigOp.disableInner ev stFrom => disableInnerTransition m ev stFrom
  | ConfigOp.timeout st dur u nxt => assignTimeOut m st dur u nxt
  | ConfigOp.globalTO dur u fnl =>
    match assignGlobalTimeOut m dur u fnl with
    | (m', none) => some m'
    | (_, some _) => none
  | ConfigOp.clearTO st => clearTimeOut m st
  | ConfigOp.clearAllTO => some (clearTimeOuts m)
  | ConfigOp.allow st ev b =>
    match allowEvent m st ev b with
    | some (m', false) => some m'
    | _ => none
  | ConfigOp.allowAll => some (allowAllEvents m)
  | ConfigOp.eventMatrix mat => some (assignEventMatrix m mat)
  | ConfigOp.transitionMatrix mat => some (assignTransitionMat m mat)

/-- Apply a sequence of configuration operations, failing as soon as one
throws. -/
def applyOps (m : SpagFSM) : List ConfigOp → Option SpagFSM
  | [] => some m
  | op :: rest =>
    match applyOp m op with
    | some m' => applyOps m' rest
    | none => none

/-- Occurrence count in a list (used to state "exactly one warning"). -/
def countOcc {α : Type} [DecidableEq α] : List α → α → Nat
  | [], _ => 0
  | x :: xs, a => (if x = a then 1 else 0) + countOcc xs a

/-- Claim-side reachability, written from the claim's own words: some OTHER
state `i` has (a) an allowed external transition to `s`, (b) an enabled
timeout to `s`, (c) a pass-state transition to `s`, or (d) an inner
transition to `s`.  To be compared against the source's `isReachable`. -/
def reachableSpec (m : SpagFSM) (s : Nat) : Prop :=
  ∃ i, i < m.nbStates ∧ i ≠ s ∧
    ((∃ k, k < m.nbEvents ∧ m.transitionMat k i = s ∧ m.allowedMat k i = true) ∨
     ((m.stateInfo i).timerEvent.enabled = true ∧
       (m.stateInfo i).timerEvent.nextState = s) ∨
     ((m.stateInfo i).isPassState = true ∧ (m.stateInfo i).ptNextState = s) ∨
     (∃ it ∈ (m.stateInfo i).innerTransList, it.destState = s))

instance (m : SpagFSM) (s : Nat) : Decidable (reachableSpec m s) := by
  unfold reachableSpec
  infer_instance

/-- The surviving conjunct of the claimed pass-state invariant: a
pass-state leads to a different state.  The timer conjunct is broken by
`assignTimeOut` on a pass-state and the empty-inner-list conjunct by the
broadcast `assignInnerTransition(EV, ST)` (see the C2 counterexample). -/
def passInvariant (m : SpagFSM) : Prop :=
  ∀ s, (m.stateInfo s).isPassState = true → (m.stateInfo s).ptNextState ≠ s

/-- Scenario of C1/S4: three states, S0 pass-state to S1, S1 pass-state to
S2. -/
def fsmChain : SpagFSM :=
  (applyOps (mkFSM 3 1) [ConfigOp.aat 0 1, ConfigOp.aat 1 2]).getD (mkFSM 3 1)

/-- Machine of the C2 counterexample: a pass-state assignment on S0 followed
by a timeout assignment on the same S0. -/
def fsmC2 : SpagFSM :=
  (applyOps (mkFSM 2 1)
    [ConfigOp.aat 0 1, ConfigOp.timeout 0 5 DurUnit.sec 1]).getD (mkFSM 2 1)

/-- Second machine of the C2 counterexample: a pass-state assignment on S0
followed by the broadcast inner-transition assignment, which appends an
inner transition to the pass-state S0. -/
def fsmC2b : SpagFSM :=
  (applyOps (mkFSM 3 1)
    [ConfigOp.aat 0 1, ConfigOp.innerB 0 2]).getD (mkFSM 3 1)

/-- Machine used to instantiate the C2 amended invariant: one legal
pass-state assignment. -/
def fsmC2w : SpagFSM :=
  (applyOps (mkFSM 2 1) [ConfigOp.aat 0 1]).getD (mkFSM 2 1)

/-- Scenario of C5/S5: three states, single transition S0 --E0--> S1. -/
def fsmS5 : SpagFSM := (assignTransition (mkFSM 3 1) 0 0 1).getD (mkFSM 3 1)

/-- Scenario of C6/S3: four states, `assignTimeOut(S1, 100, ms, S3)` already
performed before the global call. -/
def fsmGlobalTO : SpagFSM :=
  (assignTimeOut (mkFSM 4 1) 1 100 DurUnit.ms 3).getD (mkFSM 4 1)

/-- Machine of the C7 counterexample (3 states, 1 external event). -/
def fsmC7 : SpagFSM := mkFSM 3 1

/-- State info of the C7 counterexample: one ACTIVE inner transition with
event 0 and destination 2, no pass-state flag. -/
def siC7 : StateInfo := { StateInfo.mk0 with innerTransList := [⟨true, 2, 0⟩] }

/-- Machine of the C8 counterexample: S0 carries the inner transition
(event 0, destination 1). -/
def fsmC8 : SpagFSM :=
  (assignInnerTransition (mkFSM 3 1) 0 0 1).getD (mkFSM 3 1)

/-- Second machine of the C8 counterexample: S0 carries an inner transition
(event 0) whose destination is S0 itself. -/
def fsmC8self : SpagFSM :=
  { mkFSM 3 1 with
    stateInfo := fun s =>
      if s = 0 then { StateInfo.mk0 with innerTransList := [⟨false, 0, 0⟩] }
      else StateInfo.mk0 }

/-- Machine used to instantiate C9: S1 is a pass-state to S0. -/
def fsmC9 : SpagFSM :=
  (assignTransitionAAT (mkFSM 3 1) 1 0).getD (mkFSM 3 1)

/-- Machine used to instantiate C10: the current state S0 has an enabled
timeout and a callback. -/
def fsmC10 : SpagFSM :=
  { mkFSM 2 1 with
    stateInfo := fun s =>
      if s = 0 then
        { StateInfo.mk0 with
          timerEvent := ⟨1, 7, true, DurUnit.sec⟩
          hasCallback := true }
      else StateInfo.mk0 }

/-- State info handed to `processInnerEvent` in the C10 instantiation: not a
pass-state, one INACTIVE inner transition. -/
def siC10 : StateInfo := { StateInfo.mk0 with innerTransList := [⟨false, 1, 0⟩] }

theorem countOcc_append {α : Type} [DecidableEq α] (l1 l2 : List α) (a : α) :
    countOcc (l1 ++ l2) a = countOcc l1 a + countOcc l2 a := by
  induction l1 with
  | nil => simp [countOcc]
  | cons x xs ih => simp [countOcc, ih]; omega

theorem countOcc_eq_zero {α : Type} [DecidableEq α] {l : List α} {a : α}
    (h : a ∉ l) : countOcc l a = 0 := by
  induction l with
  | nil => rfl
  | cons x xs ih =>
    have hx : ¬(x = a) := fun he => h (by simp [he])
    simp [countOcc, hx, ih (fun hmem => h (by simp [hmem]))]

theorem countOcc_eq_one {α : Type} [DecidableEq α] {l : List α} {a : α}
    (hnd : l.Nodup) (h : a ∈ l) : countOcc l a = 1 := by
  induction l with
  | nil => simp at h
  | cons x xs ih =>
    rcases List.nodup_cons.mp hnd with ⟨hx, hxs⟩
    rcases List.mem_cons.mp h with h1 | h1
    · subst h1
      simp [countOcc, countOcc_eq_zero hx]
    · have hne : ¬(x = a) := fun he => hx (he ▸ h1)
      simp [countOcc, hne, ih hxs h1]

theorem countOcc_map_unreachable (l : List Nat) (s : Nat) :
    countOcc (l.map Warning.unreachable) (Warning.unreachable s) = countOcc l s := by
  induction l with
  | nil => rfl
  | cons x xs ih => simp [countOcc, ih, Warning.unreachable.injEq]

theorem countOcc_pos_mem {α : Type} [DecidableEq α] {l : List α} {a : α}
    (h : countOcc l a ≠ 0) : a ∈ l := by
  by_contra hmem
  exact h (countOcc_eq_zero hmem)

theorem scanInner_inactive {l : List InnerTransition}
    (h : ∀ it ∈ l, it.isActive = false) : scanInner l = (none, l) := by
  induction l with
  | nil => rfl
  | cons x xs ih =>
    have hx : x.isActive = false := h x (by simp)
    simp [scanInner, hx, ih (fun it hit => h it (by simp [hit]))]

theorem scanInner_first (l1 : List InnerTransition) (it : InnerTransition)
    (l2 : List InnerTransition) (h1 : ∀ x ∈ l1, x.isActive = false)
    (h2 : it.isActive = true) :
    scanInner (l1 ++ it :: l2) =
      (some (it.destState, it.innerEvent),
       l1 ++ { it with isActive := false } :: l2) := by
  induction l1 with
  | nil => simp [scanInner, h2]
  | cons x xs ih =>
    have hx : x.isActive = false := h1 x (by simp)
    simp [scanInner, hx, ih (fun y hy => h1 y (by simp [hy]))]

theorem timerStart_mem_runAction (m : SpagFSM) :
    Effect.timerStart ∈ runAction m ↔
      (m.stateInfo m.current).timerEvent.enabled = true := by
  unfold runAction
  cases h1 : (m.stateInfo m.current).timerEvent.enabled <;>
    cases h2 : (m.stateInfo m.current).hasCallback <;>
    cases h3 : (m.stateInfo m.current).isPassState
        || (m.stateInfo m.current).innerTransList.any (fun it => it.isActive) <;>
    simp [h1, h2, h3]

theorem stateCallback_mem_runAction (m : SpagFSM)
    (h : (m.stateInfo m.current).hasCallback = true) :
    Effect.stateCallback m.current ∈ runAction m := by
  unfold runAction
  simp [h]

theorem isReachable_iff (m : SpagFSM) (s : Nat) :
    isReachable m s = true ↔ reachableSpec m s := by
  unfold isReachable reachableSpec
  simp only [List.any_eq_true, List.mem_range, Bool.and_eq_true, Bool.or_eq_true,
    bne_iff_ne, beq_iff_eq, ne_eq, decide_eq_true_eq]
  constructor
  · rintro ⟨i, hi, hne, hd⟩
    refine ⟨i, hi, hne, ?_⟩
    rcases hd with ((⟨k, hk, hkk⟩ | h2) | h3) | ⟨it, hit, hdest⟩
    · exact Or.inl ⟨k, hk, hkk.1, hkk.2⟩
    · exact Or.inr (Or.inl h2)
    · exact Or.inr (Or.inr (Or.inl h3))
    · exact Or.inr (Or.inr (Or.inr ⟨it, hit, hdest⟩))
  · rintro ⟨i, hi, hne, hd⟩
    refine ⟨i, hi, hne, ?_⟩
    rcases hd with ⟨k, hk, hk1, hk2⟩ | h2 | h3 | ⟨it, hit, hdest⟩
    · exact Or.inl (Or.inl (Or.inl ⟨k, hk, hk1, hk2⟩))
    · exact Or.inl (Or.inl (Or.inr h2))
    · exact Or.inl (Or.inr h3)
    · exact Or.inr ⟨it, hit, hdest⟩

theorem mem_unreachableList (m : SpagFSM) (s : Nat) :
    s ∈ unreachableList m ↔
      s < m.nbStates ∧ s ≠ 0 ∧ isReachable m s = false := by
  simp [unreachableList, List.mem_filter, List.mem_range, Bool.and_eq_true,
    bne_iff_ne, Bool.not_eq_true']

theorem nodup_unreachableList (m : SpagFSM) : (unreachableList m).Nodup :=
  List.Nodup.filter _ (List.nodup_range _)

theorem unreachable_not_mem_deadEndList (m : SpagFSM) (s : Nat) :
    Warning.unreachable s ∉ deadEndList m := by
  intro hmem
  simp only [deadEndList, List.mem_filterMap] at hmem
  obtain ⟨a, _ha, heq⟩ := hmem
  split at heq
  · simp at heq
  · simp at heq

theorem countOcc_doChecking_unreachable (m : SpagFSM) (s : Nat) :
    countOcc (doChecking m) (Warning.unreachable s) =
      countOcc (unreachableList m) s := by
  unfold doChecking
  rw [countOcc_append, countOcc_map_unreachable,
    countOcc_eq_zero (unreachable_not_mem_deadEndList m s), Nat.add_zero]

/-- C1: on the pass-state chain S0 -> S1 -> S2 the claim expects `start()` to
raise the configuration error "S0 cannot be followed by another pass-state".
In this source all pass-state checks of `doChecking` sit inside `#if 0`, so
`start()` completes normally: the validator only emits the dead-end warning
for S2 and the machine ends up running. -/
theorem c1_pass_chain_no_error :
    applyOps (mkFSM 3 1) [ConfigOp.aat 0 1, ConfigOp.aat 1 2] = some fsmChain ∧
    (fsmChain.stateInfo 0).isPassState = true ∧
    (fsmChain.stateInfo 0).ptNextState = 1 ∧
    (fsmChain.stateInfo 1).isPassState = true ∧
    (start fsmChain).2.1 = [Warning.deadEnd 2] ∧
    (start fsmChain).1.isRunning = true :=
  ⟨rfl, by decide, by decide, by decide, by decide, by decide⟩

/-- C2 counterexample, refuting two conjuncts of the claimed invariant over
legal operation sequences: (i) "declare S0 a pass-state to S1, then assign a
timeout on S0" leaves S0 with BOTH the pass-state flag and an enabled timer
(`assignTimeOut` never checks the flag); (ii) "declare S0 a pass-state to
S1, then broadcast-assign the inner transition (E0, S2)" leaves S0 a
pass-state with a NON-empty inner-transition list (the broadcast overload
has no pass-state check). -/
theorem c2_pass_invariant_cex :
    (applyOps (mkFSM 2 1)
      [ConfigOp.aat 0 1, ConfigOp.timeout 0 5 DurUnit.sec 1] = some fsmC2 ∧
     (fsmC2.stateInfo 0).isPassState = true ∧
     (fsmC2.stateInfo 0).timerEvent.enabled = true) ∧
    (applyOps (mkFSM 3 1)
      [ConfigOp.aat 0 1, ConfigOp.innerB 0 2] = some fsmC2b ∧
     (fsmC2b.stateInfo 0).isPassState = true ∧
     (fsmC2b.stateInfo 0).innerTransList = [⟨false, 2, 0⟩] ∧
     (fsmC2b.stateInfo 0).innerTransList ≠ []) :=
  ⟨⟨rfl, by decide, by decide⟩, ⟨rfl, by decide, by decide, by decide⟩⟩

/-- C3: when `allowed[ev][current]` is false, `processEvent(ev)` leaves the
current state unchanged, bumps the ignored-event counter of `ev` by exactly
one (others untouched), produces exactly one ignored-events callback
invocation with the current state and the event when the callback is
assigned and nothing otherwise, and neither starts nor cancels a timer nor
runs a state callback. -/
theorem c3_ignored_event (m : SpagFSM) (ev : Nat)
    (h : m.allowedMat ev m.current = false) :
    (processEvent m ev).1.current = m.current ∧
    (processEvent m ev).1.ignoredEvents ev = m.ignoredEvents ev + 1 ∧
    (∀ j, j ≠ ev → (processEvent m ev).1.ignoredEvents j = m.ignoredEvents j) ∧
    (processEvent m ev).2 =
      (if m.hasIgnCallback then [Effect.ignCallback m.current ev] else []) ∧
    Effect.timerStart ∉ (processEvent m ev).2 ∧
    Effect.timerCancel ∉ (processEvent m ev).2 ∧
    (∀ s, Effect.stateCallback s ∉ (processEvent m ev).2) := by
  have hp : processEvent m ev =
      (logIgnoredEvent m ev,
       if m.hasIgnCallback then [Effect.ignCallback m.current ev] else []) := by
    simp [processEvent, h]
  rw [hp]
  refine ⟨rfl, ?_, ?_, rfl, ?_, ?_, ?_⟩
  · simp [logIgnoredEvent]
  · intro j hj
    simp [logIgnoredEvent, hj]
  · cases hc : m.hasIgnCallback <;> simp [hc]
  · cases hc : m.hasIgnCallback <;> simp [hc]
  · intro s
    cases hc : m.hasIgnCallback <;> simp [hc]

/-- Witness for C3 at the turnstile-like machine `mkFSM 2 1` where event 0
was never wired: the state stays put and the counter becomes one. -/
theorem c3_ignored_event_witness :
    (processEvent (mkFSM 2 1) 0).1.current = (mkFSM 2 1).current ∧
    (processEvent (mkFSM 2 1) 0).1.ignoredEvents 0 =
      (mkFSM 2 1).ignoredEvents 0 + 1 := by
  have h := c3_ignored_event (mkFSM 2 1) 0 (by decide)
  exact ⟨h.1, h.2.1⟩

/-- C5 counterexample: on the S5 scenario (3 states, single transition
S0 --E0--> S1) the validator does warn once that S2 is unreachable, but it
emits NO dead-end warning for S2: `doChecking` suppresses the dead-end
warning for states already on the unreachable list. -/
theorem c5_s5_diagnostics_cex :
    assignTransition (mkFSM 3 1) 0 0 1 = some fsmS5 ∧
    countOcc (doChecking fsmS5) (Warning.unreachable 2) = 1 ∧
    countOcc (doChecking fsmS5) (Warning.deadEnd 2) = 0 :=
  ⟨rfl, by decide, by decide⟩

/-- C5 amended: `start()` succeeds on the S5 scenario and the diagnostics
consist of exactly one warning naming S2 as unreachable and exactly one
dead-end warning naming S1 (the state with no allowed outgoing transition);
S2 gets no dead-end warning because dead-end warnings are suppressed for
unreachable states. -/
theorem c5_s5_diagnostics :
    (start fsmS5).1.isRunning = true ∧
    doChecking fsmS5 = [Warning.unreachable 2, Warning.deadEnd 1] ∧
    countOcc (doChecking fsmS5) (Warning.unreachable 2) = 1 ∧
    countOcc (doChecking fsmS5) (Warning.deadEnd 1) = 1 ∧
    countOcc (doChecking fsmS5) (Warning.deadEnd 2) = 0 :=
  ⟨by decide, by decide, by decide, by decide, by decide⟩

/-- C7 counterexample: firing the active inner transition (event 0, to S2)
logs the transition with the inner event's OWN id 0, not with the synthetic
id `NumEvents + 1 = 2` the claim requires. -/
theorem c7_inner_event_cex :
    (processInnerEvent fsmC7 siC7).1.current = 2 ∧
    (processInnerEvent fsmC7 siC7).1.history = [(0, 2)] ∧
    fsmC7.nbEvents + 1 = 2 ∧
    (processInnerEvent fsmC7 siC7).1.history ≠ [(fsmC7.nbEvents + 1, 2)] := by
  decide

/-- C8 counterexample: (i) S0 of `fsmC8` carries the inner transition
(event 0, destination S1), yet `allowEvent(S0, E0, true)` is NOT rejected —
the source's guard `holdsInnerTransition(ev, st)` only matches an inner
transition whose destination is the queried state itself; (ii) on `fsmC8self`
(inner transition event 0 with destination S0) the call IS rejected, but the
allow-mask has already been mutated when the throw happens. -/
theorem c8_allow_event_cex :
    (fsmC8.stateInfo 0).innerTransList = [⟨false, 1, 0⟩] ∧
    (allowEvent fsmC8 0 0 true).map (fun r => r.2) = some false ∧
    fsmC8self.allowedMat 0 0 = false ∧
    (allowEvent fsmC8self 0 0 true).map
      (fun r => (r.2, r.1.allowedMat 0 0)) = some (true, true) := by
  decide

/-- C9: the broadcast overload `assignTransition(ev, st)` succeeds on every
machine whose indices are in range and rewires row `ev` for EVERY state —
pass-states included — while the three-argument overload rejects any
pass-state source with a configuration error. -/
theorem c9_broadcast_pass (m : SpagFSM) (ev st : Nat)
    (hst : st < m.nbStates) (hev : ev < m.nbEvents) :
    ∃ m', assignTransitionBroadcast m ev st = some m' ∧
      (∀ s, m'.transitionMat ev s = st ∧ m'.allowedMat ev s = true) ∧
      ∀ p, (m.stateInfo p).isPassState = true →
        assignTransition m p ev st = none := by
  unfold assignTransitionBroadcast
  rw [if_pos ⟨hst, hev⟩]
  refine ⟨_, rfl, ?_, ?_⟩
  · intro s
    exact ⟨by simp, by simp⟩
  · intro p hp
    unfold assignTransition
    by_cases hb : p < m.nbStates ∧ st < m.nbStates ∧ ev < m.nbEvents
    · rw [if_pos hb, if_pos hp]
    · rw [if_neg hb]

/-- Witness for C9: on `fsmC9` (S1 is a pass-state) the broadcast overload
does not fail while the three-argument overload on source S1 does. -/
theorem c9_broadcast_pass_witness :
    assignTransitionBroadcast fsmC9 0 2 ≠ none ∧
    assignTransition fsmC9 1 0 2 = none := by
  obtain ⟨m', heq, _hall, hpass⟩ := c9_broadcast_pass fsmC9 0 2 (by decide) (by decide)
  exact ⟨by rw [heq]; simp, hpass 1 (by decide)⟩

/-- C10: `processInnerEvent` on a non-pass-state with no active inner
transition leaves the current state unchanged, still logs one transition
with the synthetic inner id `NumEvents + 1` (bumping the event and state
counters), and still executes `runAction()` — re-starting the current
state's timer when enabled and invoking its callback again when present. -/
theorem c10_no_active_inner (m : SpagFSM) (si : StateInfo)
    (hp : si.isPassState = false)
    (ha : ∀ it ∈ si.innerTransList, it.isActive = false) :
    (processInnerEvent m si).1.current = m.current ∧
    (processInnerEvent m si).1.history =
      m.history ++ [(m.nbEvents + 1, m.current)] ∧
    (processInnerEvent m si).1.eventCounter (m.nbEvents + 1) =
      m.eventCounter (m.nbEvents + 1) + 1 ∧
    (processInnerEvent m si).1.stateCounter m.current =
      m.stateCounter m.current + 1 ∧
    (processInnerEvent m si).2.2 = runAction (processInnerEvent m si).1 ∧
    (Effect.timerStart ∈ (processInnerEvent m si).2.2 ↔
      (m.stateInfo m.current).timerEvent.enabled = true) ∧
    ((m.stateInfo m.current).hasCallback = true →
      Effect.stateCallback m.current ∈ (processInnerEvent m si).2.2) := by
  have hp2 : processInnerEvent m si =
      (logTransition m m.current (m.nbEvents + 1),
       { si with innerTransList := si.innerTransList },
       runAction (logTransition m m.current (m.nbEvents + 1))) := by
    simp [processInnerEvent, hp, scanInner_inactive ha]
  rw [hp2]
  refine ⟨rfl, rfl, ?_, ?_, rfl, ?_, ?_⟩
  · simp [logTransition]
  · simp [logTransition]
  · exact timerStart_mem_runAction (logTransition m m.current (m.nbEvents + 1))
  · intro h
    exact stateCallback_mem_runAction (logTransition m m.current (m.nbEvents + 1)) h

/-- Witness for C10 on `fsmC10` (current state S0 with timeout and
callback) and `siC10` (one inactive inner transition). -/
theorem c10_no_active_inner_witness :
    (processInnerEvent fsmC10 siC10).1.current = fsmC10.current ∧
    (processInnerEvent fsmC10 siC10).1.eventCounter (fsmC10.nbEvents + 1) = 1 ∧
    Effect.timerStart ∈ (processInnerEvent fsmC10 siC10).2.2 ∧
    Effect.stateCallback fsmC10.current ∈ (processInnerEvent fsmC10 siC10).2.2 := by
  have h := c10_no_active_inner fsmC10 siC10 (by decide) (by decide)
  refine ⟨h.1, ?_, ?_, ?_⟩
  · rw [h.2.2.1]
    decide
  · exact (h.2.2.2.2.2.1).mpr (by decide)
  · exact h.2.2.2.2.2.2 (by decide)

/-- C4: for `0 < s < NumStates`, the validator emits exactly one
"unreachable" warning for `s` iff no other state has an allowed external
transition, an enabled timeout, a pass-state transition, or an inner
transition to `s`; and it emits no such warning when `s` is reachable. -/
theorem c4_unreachable_warning (m : SpagFSM) (s : Nat)
    (h1 : 0 < s) (h2 : s < m.nbStates) :
    (countOcc (doChecking m) (Warning.unreachable s) = 1 ↔ ¬ reachableSpec m s) ∧
    (reachableSpec m s → countOcc (doChecking m) (Warning.unreachable s) = 0) := by
  rw [countOcc_doChecking_unreachable]
  constructor
  · constructor
    · intro hone hreach
      have hmem : s ∈ unreachableList m := countOcc_pos_mem (by omega)
      have hs := (mem_unreachableList m s).mp hmem
      rw [← isReachable_iff] at hreach
      rw [hs.2.2] at hreach
      exact Bool.false_ne_true hreach
    · intro hnr
      apply countOcc_eq_one (nodup_unreachableList m)
      apply (mem_unreachableList m s).mpr
      refine ⟨h2, by omega, ?_⟩
      cases hb : isReachable m s
      · rfl
      · exact absurd ((isReachable_iff m s).mp hb) hnr
  · intro hreach
    apply countOcc_eq_zero
    intro hmem
    have hs := (mem_unreachableList m s).mp hmem
    rw [← isReachable_iff, hs.2.2] at hreach
    exact Bool.false_ne_true hreach

/-- Witness for C4 on the S5 machine: S2 has no incoming transition of any
kind, and the validator warns exactly once. -/
theorem c4_unreachable_warning_witness :
    countOcc (doChecking fsmS5) (Warning.unreachable 2) = 1 :=
  (c4_unreachable_warning fsmS5 2 (by decide) (by decide)).1.mpr (by decide)

theorem agtAux_passFields (dur : Nat) (u : DurUnit) (fnl : Nat) :
    ∀ (l : List Nat) (m : SpagFSM) (s : Nat),
      (((agtAux dur u fnl l m).1).stateInfo s).isPassState =
        (m.stateInfo s).isPassState ∧
      (((agtAux dur u fnl l m).1).stateInfo s).ptNextState =
        (m.stateInfo s).ptNextState := by
  intro l
  induction l with
  | nil => intro m s; exact ⟨rfl, rfl⟩
  | cons i rest ih =>
    intro m s
    by_cases h1 : i = fnl
    · simp only [agtAux, if_pos h1]
      exact ih m s
    · by_cases h2 : (m.stateInfo i).timerEvent.enabled = true
      · simp [agtAux, h1, h2]
      · have h2' : (m.stateInfo i).timerEvent.enabled = false := by
          cases hb : (m.stateInfo i).timerEvent.enabled
          · rfl
          · exact absurd hb h2
        by_cases h3 : i < m.nbStates ∧ fnl < m.nbStates
        · have hstep : agtAux dur u fnl (i :: rest) m =
              agtAux dur u fnl rest (assignTimeOutU m i dur u fnl) := by
            simp [agtAux, h1, h2', h3]
          rw [hstep]
          have hpre : ((assignTimeOutU m i dur u fnl).stateInfo s).isPassState =
              (m.stateInfo s).isPassState ∧
              ((assignTimeOutU m i dur u fnl).stateInfo s).ptNextState =
              (m.stateInfo s).ptNextState := by
            by_cases hs : s = i
            · subst hs
              simp [assignTimeOutU]
            · simp [assignTimeOutU, hs]
          exact ⟨(ih _ s).1.trans hpre.1, (ih _ s).2.trans hpre.2⟩
        · simp [agtAux, h1, h2', h3]

theorem applyOp_passInvariant {m m' : SpagFSM} {op : ConfigOp}
    (h : applyOp m op = some m') (hm : passInvariant m) : passInvariant m' := by
  cases op with
  | ext st1 ev st2 =>
    simp only [applyOp, assignTransition] at h
    split at h
    · split at h
      · simp at h
      · injection h with h
        subst h
        intro s hs
        exact hm s hs
    · simp at h
  | extB ev st =>
    simp only [applyOp, assignTransitionBroadcast] at h
    split at h
    · injection h with h
      subst h
      intro s hs
      exact hm s hs
    · simp at h
  | aat st1 st2 =>
    simp only [applyOp, assignTransitionAAT] at h
    split at h
    · split at h
      · simp at h
      · rename_i hne
        injection h with h
        subst h
        intro s hs
        by_cases hss : s = st1
        · subst hss
          simp only [if_pos rfl]
          exact fun he => hne he.symm
        · simp only [if_neg hss] at hs ⊢
          exact hm s hs
    · simp at h
  | inner st1 ev st2 =>
    simp only [applyOp, assignInnerTransition] at h
    split at h
    · split at h
      · simp at h
      · injection h with h
        subst h
        intro s hs
        by_cases hss : s = st1
        · subst hss
          simp only [if_pos rfl] at hs
          simp at hs
        · simp only [if_neg hss] at hs ⊢
          exact hm s hs
    · simp at h
  | innerB ev st =>
    simp only [applyOp, assignInnerTransitionB] at h
    split at h
    · injection h with h
      subst h
      intro s hs
      by_cases hc : s ≠ st ∧ s < m.nbStates ∧
          (m.stateInfo s).holdsInnerTransition ev st = false
      · simp only [if_pos hc] at hs ⊢
        exact hm s hs
      · simp only [if_neg hc] at hs ⊢
        exact hm s hs
    · simp at h
  | disableInner ev stFrom =>
    simp only [applyOp, disableInnerTransition] at h
    cases hr : removeFirstInnerEvent ev (m.stateInfo stFrom).innerTransList with
    | none => rw [hr] at h; simp at h
    | some l =>
      rw [hr] at h
      injection h with h
      subst h
      intro s hs
      by_cases hss : s = stFrom
      · subst hss
        simp only [if_pos rfl] at hs ⊢
        exact hm _ hs
      · simp only [if_neg hss] at hs ⊢
        exact hm s hs
  | timeout st dur u nxt =>
    simp only [applyOp, assignTimeOut] at h
    split at h
    · injection h with h
      subst h
      intro s hs
      by_cases hss : s = st
      · subst hss
        simp only [if_pos rfl] at hs ⊢
        exact hm _ hs
      · simp only [if_neg hss] at hs ⊢
        exact hm s hs
    · simp at h
  | globalTO dur u fnl =>
    simp only [applyOp] at h
    cases hg : assignGlobalTimeOut m dur u fnl with
    | mk m1 oerr =>
      rw [hg] at h
      cases oerr with
      | none =>
        have h' : some m1 = some m' := h
        injection h' with h'
        subst h'
        intro s hs
        have hp := agtAux_passFields dur u fnl (List.range m.nbStates) m s
        have heq1 : agtAux dur u fnl (List.range m.nbStates) m =
            (m1, (none : Option AgtError)) := hg
        rw [heq1] at hp
        rw [hp.1] at hs
        rw [hp.2]
        exact hm s hs
      | some e => exact Option.noConfusion h
  | clearTO st =>
    simp only [applyOp, clearTimeOut] at h
    split at h
    · injection h with h
      subst h
      intro s hs
      by_cases hss : s = st
      · subst hss
        simp only [if_pos rfl] at hs ⊢
        exact hm _ hs
      · simp only [if_neg hss] at hs ⊢
        exact hm s hs
    · simp at h
  | clearAllTO =>
    simp only [applyOp, clearTimeOuts] at h
    injection h with h
    subst h
    intro s hs
    by_cases hss : s < m.nbStates
    · simp only [if_pos hss] at hs ⊢
      exact hm _ hs
    · simp only [if_neg hss] at hs ⊢
      exact hm s hs
  | allow st ev b =>
    simp only [applyOp] at h
    by_cases hb : st < m.nbStates ∧ ev < m.nbEvents
    · cases hflag : (m.stateInfo st).holdsInnerTransition ev st
      · simp only [allowEvent, if_pos hb, hflag] at h
        injection h with h
        subst h
        intro s hs
        exact hm s hs
      · simp only [allowEvent, if_pos hb, hflag] at h
        simp at h
    · simp only [allowEvent, if_neg hb] at h
      simp at h
  | allowAll =>
    simp only [applyOp, allowAllEvents] at h
    injection h with h
    subst h
    intro s hs
    exact hm s hs
  | eventMatrix mat =>
    simp only [applyOp, assignEventMatrix] at h
    injection h with h
    subst h
    intro s hs
    exact hm s hs
  | transitionMatrix mat =>
    simp only [applyOp, assignTransitionMat] at h
    injection h with h
    subst h
    intro s hs
    exact hm s hs

theorem applyOps_passInvariant (ops : List ConfigOp) :
    ∀ m m', passInvariant m → applyOps m ops = some m' → passInvariant m' := by
  induction ops with
  | nil =>
    intro m m' hm h
    simp only [applyOps] at h
    injection h with h
    subst h
    exact hm
  | cons op rest ih =>
    intro m m' hm h
    simp only [applyOps] at h
    cases hop : applyOp m op with
    | none => rw [hop] at h; simp at h
    | some m1 =>
      rw [hop] at h
      exact ih m1 m' (applyOp_passInvariant hop hm) h

/-- C2 amended: after any legal (non-throwing) sequence of the
configuration operations that mutate the tables, starting from a fresh
machine, every pass-state `s` satisfies `passNext(s) ≠ s`.  The claim's
other two conjuncts fail on the code: `timer(s).enabled = false` does not
survive a later `assignTimeOut` on the pass-state, and
`innerTransitions(s) = ∅` does not survive the broadcast
`assignInnerTransition(EV, ST)` — see the counterexample. -/
theorem c2_pass_invariant (n e : Nat) (ops : List ConfigOp) (m' : SpagFSM)
    (h : applyOps (mkFSM n e) ops = some m') : passInvariant m' := by
  apply applyOps_passInvariant ops (mkFSM n e) m' _ h
  intro s hs
  simp [mkFSM, StateInfo.mk0] at hs

/-- Witness for C2 on a single pass-state assignment. -/
theorem c2_pass_invariant_witness :
    (fsmC2w.stateInfo 0).ptNextState ≠ 0 :=
  c2_pass_invariant 2 1 [ConfigOp.aat 0 1] fsmC2w rfl 0 (by decide)

/-- C7 amended: `processInnerEvent` on a pass-state switches to `passNext`
and logs with the synthetic id `NumEvents + 1`; on a non-pass-state it takes
the FIRST inner transition whose active flag is set, switches to its
destination, clears that flag, and logs with that transition's OWN event id
(not the synthetic one); in both cases `runAction()` then executes. -/
theorem c7_inner_event (m : SpagFSM) (si : StateInfo) :
    (si.isPassState = true →
      (processInnerEvent m si).1.current = si.ptNextState ∧
      (processInnerEvent m si).1.history =
        m.history ++ [(m.nbEvents + 1, si.ptNextState)] ∧
      (processInnerEvent m si).2.2 = runAction (processInnerEvent m si).1) ∧
    (si.isPassState = false →
      ∀ l1 it l2, si.innerTransList = l1 ++ it :: l2 →
        (∀ x ∈ l1, x.isActive = false) → it.isActive = true →
        (processInnerEvent m si).1.current = it.destState ∧
        (processInnerEvent m si).1.history =
          m.history ++ [(it.innerEvent, it.destState)] ∧
        (processInnerEvent m si).2.1.innerTransList =
          l1 ++ { it with isActive := false } :: l2 ∧
        (processInnerEvent m si).2.2 = runAction (processInnerEvent m si).1) := by
  constructor
  · intro hps
    have hp2 : processInnerEvent m si =
        (logTransition { m with current := si.ptNextState } si.ptNextState
          (m.nbEvents + 1),
         si,
         runAction (logTransition { m with current := si.ptNextState }
          si.ptNextState (m.nbEvents + 1))) := by
      simp [processInnerEvent, hps]
    rw [hp2]
    exact ⟨rfl, rfl, rfl⟩
  · intro hps l1 it l2 hl hin hact
    have hp2 : processInnerEvent m si =
        (logTransition { m with current := it.destState } it.destState
          it.innerEvent,
         { si with innerTransList := l1 ++ { it with isActive := false } :: l2 },
         runAction (logTransition { m with current := it.destState }
          it.destState it.innerEvent)) := by
      simp [processInnerEvent, hps, hl, scanInner_first l1 it l2 hin hact]
    rw [hp2]
    exact ⟨rfl, rfl, rfl, rfl⟩

/-- Witness for C7 at the counterexample machine: the inner transition
fires, the destination becomes current and the flag is cleared. -/
theorem c7_inner_event_witness :
    (processInnerEvent fsmC7 siC7).1.history =
      fsmC7.history ++ [(0, 2)] ∧
    (processInnerEvent fsmC7 siC7).2.1.innerTransList = [⟨false, 2, 0⟩] := by
  have h := (c7_inner_event fsmC7 siC7).2 (by decide) [] ⟨true, 2, 0⟩ [] rfl
    (by simp) (by decide)
  exact ⟨h.2.1, h.2.2.1⟩

/-- C8 amended: `allowEvent(from, event, b)` (with indices in range) always
returns with `allowed[event][from] = b` already written, leaves everything
else unchanged, and raises its (runtime) error exactly when `from` carries
an inner transition with event `event` whose destination is `from` ITSELF —
the matrix write survives the error. -/
theorem c8_allow_event (m : SpagFSM) (st ev : Nat) (what : Bool)
    (hst : st < m.nbStates) (hev : ev < m.nbEvents) :
    ∃ m' err, allowEvent m st ev what = some (m', err) ∧
      m'.allowedMat ev st = what ∧
      (∀ e s, ¬(e = ev ∧ s = st) → m'.allowedMat e s = m.allowedMat e s) ∧
      m'.transitionMat = m.transitionMat ∧
      m'.stateInfo = m.stateInfo ∧
      m'.current = m.current ∧
      (err = true ↔ ∃ it ∈ (m.stateInfo st).innerTransList,
        it.destState = st ∧ it.innerEvent = ev) := by
  unfold allowEvent
  rw [if_pos ⟨hst, hev⟩]
  refine ⟨_, _, rfl, by simp, ?_, rfl, rfl, rfl, ?_⟩
  · intro e s hne
    simp only [if_neg hne]
  · simp [StateInfo.holdsInnerTransition, List.any_eq_true, Bool.and_eq_true,
      beq_iff_eq]

/-- Witness for C8 at the counterexample machine with the self-destination
inner transition: the error is raised and the mutation is already in
place. -/
theorem c8_allow_event_witness :
    (allowEvent fsmC8self 0 0 true).map (fun r => r.1.allowedMat 0 0) =
      some true ∧
    (allowEvent fsmC8self 0 0 true).map (fun r => r.2) = some true := by
  obtain ⟨m', err, heq, hset, _, _, _, _, hiff⟩ :=
    c8_allow_event fsmC8self 0 0 true (by decide) (by decide)
  have herr : err = true := hiff.mpr (by decide)
  rw [heq]
  simp [hset, herr]

theorem agtAux_conflict (dur : Nat) (u : DurUnit) (fnl : Nat) :
    ∀ (n a : Nat) (m : SpagFSM) (i0 : Nat),
      a ≤ i0 → i0 < a + n → i0 ≠ fnl →
      (m.stateInfo i0).timerEvent.enabled = true →
      (∀ j, a ≤ j → j < i0 → j ≠ fnl →
        (m.stateInfo j).timerEvent.enabled = false) →
      (∀ j, a ≤ j → j < i0 → j < m.nbStates) →
      fnl < m.nbStates →
      ∃ m', agtAux dur u fnl (List.range' a n) m =
          (m', some (AgtError.timeoutConflict i0)) ∧
        (∀ j, a ≤ j → j < i0 → j ≠ fnl →
          m'.stateInfo j =
            { m.stateInfo j with timerEvent := ⟨fnl, dur, true, u⟩ }) ∧
        (∀ j, j < a ∨ i0 ≤ j ∨ j = fnl → m'.stateInfo j = m.stateInfo j) ∧
        m'.transitionMat = m.transitionMat ∧
        m'.allowedMat = m.allowedMat ∧
        m'.current = m.current := by
  intro n
  induction n with
  | zero =>
    intro a m i0 h1 h2 h3 h4 h5 h6 h7
    exact absurd h2 (by omega)
  | succ n ih =>
    intro a m i0 h1 h2 h3 h4 h5 h6 h7
    rw [List.range'_succ]
    by_cases hafin : a = fnl
    · have hne : i0 ≠ a := fun he => h3 (he.trans hafin)
      have hstep : agtAux dur u fnl (a :: List.range' (a + 1) n) m
          = agtAux dur u fnl (List.range' (a + 1) n) m := by
        simp [agtAux, hafin]
      obtain ⟨m', heq, hmut, hunch, ht, hal, hcur⟩ :=
        ih (a + 1) m i0 (by omega) (by omega) h3 h4
          (fun j hj1 hj2 hj3 => h5 j (by omega) hj2 hj3)
          (fun j hj1 hj2 => h6 j (by omega) hj2) h7
      refine ⟨m', by rw [hstep]; exact heq, ?_, ?_, ht, hal, hcur⟩
      · intro j hj1 hj2 hj3
        rcases Nat.eq_or_lt_of_le hj1 with he | hlt
        · exact absurd (he.symm.trans hafin) hj3
        · exact hmut j (by omega) hj2 hj3
      · intro j hj
        apply hunch
        rcases hj with hj | hj
        · exact Or.inl (by omega)
        · exact Or.inr hj
    · by_cases hen : (m.stateInfo a).timerEvent.enabled = true
      · have hia : i0 = a := by
          by_contra hne
          have hlt : a < i0 := by omega
          rw [h5 a (Nat.le_refl a) hlt hafin] at hen
          exact Bool.false_ne_true hen
        subst hia
        refine ⟨m, ?_, ?_, fun j _ => rfl, rfl, rfl, rfl⟩
        · simp [agtAux, hafin, hen]
        · intro j hj1 hj2 hj3
          exact absurd hj2 (by omega)
      · have hen' : (m.stateInfo a).timerEvent.enabled = false := by
          cases hb : (m.stateInfo a).timerEvent.enabled
          · rfl
          · exact absurd hb hen
        have hne : i0 ≠ a := by
          intro he
          rw [he] at h4
          rw [h4] at hen'
          exact Bool.noConfusion hen'
        have hba : a < m.nbStates := h6 a (Nat.le_refl a) (by omega)
        have hstep : agtAux dur u fnl (a :: List.range' (a + 1) n) m
            = agtAux dur u fnl (List.range' (a + 1) n)
                (assignTimeOutU m a dur u fnl) := by
          simp [agtAux, hafin, hen', hba, h7]
        set m1 := assignTimeOutU m a dur u fnl with hm1
        have hsi : ∀ j, j ≠ a → m1.stateInfo j = m.stateInfo j := by
          intro j hj
          simp [hm1, assignTimeOutU, hj]
        have hsia : m1.stateInfo a =
            { m.stateInfo a with timerEvent := ⟨fnl, dur, true, u⟩ } := by
          simp [hm1, assignTimeOutU]
        obtain ⟨m', heq, hmut, hunch, ht, hal, hcur⟩ :=
          ih (a + 1) m1 i0 (by omega) (by omega) h3
            (by rw [hsi i0 hne]; exact h4)
            (fun j hj1 hj2 hj3 => by
              rw [hsi j (by omega)]
              exact h5 j (by omega) hj2 hj3)
            (fun j hj1 hj2 => h6 j (by omega) hj2)
            h7
        refine ⟨m', by rw [hstep]; exact heq, ?_, ?_, ht, hal, hcur⟩
        · intro j hj1 hj2 hj3
          rcases Nat.eq_or_lt_of_le hj1 with he | hlt
          · rw [← he] at hj3 ⊢
            rw [hunch a (Or.inl (by omega)), hsia]
          · rw [hmut j (by omega) hj2 hj3, hsi j (by omega)]
        · intro j hj
          rcases hj with hj | hj | hj
          · rw [hunch j (Or.inl (by omega)), hsi j (by omega)]
          · rw [hunch j (Or.inr (Or.inl hj)), hsi j (by omega)]
          · subst hj
            rw [hunch j (Or.inr (Or.inr rfl)), hsi j (fun he => hafin he.symm)]

/-- C6 counterexample: on the S3 scenario (4 states, timeout already on S1)
`assignGlobalTimeOut(500, ms, S3)` does fail with the error naming S1, but
the failed call has ALREADY overwritten S0's timeout descriptor — the
mutation is not rolled back. -/
theorem c6_global_timeout_cex :
    assignTimeOut (mkFSM 4 1) 1 100 DurUnit.ms 3 = some fsmGlobalTO ∧
    (assignGlobalTimeOut fsmGlobalTO 500 DurUnit.ms 3).2 =
      some (AgtError.timeoutConflict 1) ∧
    (fsmGlobalTO.stateInfo 0).timerEvent.enabled = false ∧
    ((assignGlobalTimeOut fsmGlobalTO 500 DurUnit.ms 3).1.stateInfo 0).timerEvent
      ≠ (fsmGlobalTO.stateInfo 0).timerEvent :=
  ⟨rfl, by decide, by decide, by decide⟩

/-- C6 amended: when some state other than `st_final` already has an enabled
timeout, `assignGlobalTimeOut` fails with a configuration error naming the
LOWEST-indexed such state `i0`; at that point every state below `i0` (other
than `st_final`) has already received the new global timeout, while `i0`,
all higher states, `st_final` and the matrices are unchanged. -/
theorem c6_global_timeout (m : SpagFSM) (dur : Nat) (u : DurUnit) (fnl i0 : Nat)
    (h1 : i0 < m.nbStates) (h2 : i0 ≠ fnl)
    (h3 : (m.stateInfo i0).timerEvent.enabled = true)
    (h4 : ∀ j, j < i0 → j ≠ fnl → (m.stateInfo j).timerEvent.enabled = false)
    (h5 : fnl < m.nbStates) :
    ∃ m', assignGlobalTimeOut m dur u fnl =
        (m', some (AgtError.timeoutConflict i0)) ∧
      (∀ j, j < i0 → j ≠ fnl →
        m'.stateInfo j =
          { m.stateInfo j with timerEvent := ⟨fnl, dur, true, u⟩ }) ∧
      (∀ j, i0 ≤ j ∨ j = fnl → m'.stateInfo j = m.stateInfo j) ∧
      m'.transitionMat = m.transitionMat ∧
      m'.allowedMat = m.allowedMat ∧
      m'.current = m.current := by
  obtain ⟨m', heq, hmut, hunch, ht, hal, hcur⟩ :=
    agtAux_conflict dur u fnl m.nbStates 0 m i0 (Nat.zero_le i0) (by omega) h2
      h3 (fun j _ hj2 hj3 => h4 j hj2 hj3) (fun j _ hj2 => by omega) h5
  refine ⟨m', ?_, ?_, ?_, ht, hal, hcur⟩
  · rw [assignGlobalTimeOut, List.range_eq_range']
    exact heq
  · intro j hj1 hj2
    exact hmut j (Nat.zero_le j) hj1 hj2
  · intro j hj
    apply hunch
    rcases hj with hj | hj
    · exact Or.inr (Or.inl hj)
    · exact Or.inr (Or.inr hj)

/-- Witness for C6 at the S3 scenario: the first offending state is S1, the
error names it, and S0 already carries the new 500 ms timeout. -/
theorem c6_global_timeout_witness :
    (assignGlobalTimeOut fsmGlobalTO 500 DurUnit.ms 3).2 =
      some (AgtError.timeoutConflict 1) ∧
    ((assignGlobalTimeOut fsmGlobalTO 500 DurUnit.ms 3).1.stateInfo 0).timerEvent
      = ⟨3, 500, true, DurUnit.ms⟩ ∧
    ((assignGlobalTimeOut fsmGlobalTO 500 DurUnit.ms 3).1.stateInfo 1).timerEvent
      = (fsmGlobalTO.stateInfo 1).timerEvent := by
  obtain ⟨m', heq, hmut, hunch, _, _, _⟩ :=
    c6_global_timeout fsmGlobalTO 500 DurUnit.ms 3 1 (by decide) (by decide)
      (by decide) (by decide) (by decide)
  rw [heq]
  refine ⟨rfl, ?_, ?_⟩
  · rw [hmut 0 (by decide) (by decide)]
  · rw [hunch 1 (Or.inl (by decide))]

end Spag
